import Mathlib

/-!
Shallow embedding of the IEC-lookup scraper (`src/app.py`) and proofs about
its core logic: the structured table extractor (`extract_table_data_with_bs4`),
the pagination walker (`extract_table_data_with_pagination`), the CAPTCHA
resolution loop (`handle_captcha_submission`), the visual-solver client
(`solve_captcha_with_gpt4`) and the request handler (`get_iec_details`).

Python strings are modelled as Lean `String`; the string primitives used by
the source (`str.strip`, `str.split()`/`' '.join`) are re-implemented over
`List Char` so their algebra can be proved.  Browser and network effects are
modelled as explicit environment values fed to the embedded functions.
-/

/-! ### Python string primitives -/

/-- Python `str.strip()`: drop leading whitespace, then drop trailing
whitespace.  Trailing-drop is implemented by a structural fold so that its
equations are convenient for induction. -/
def dropTrailingWs : List Char → List Char
  | [] => []
  | c :: cs =>
    match dropTrailingWs cs with
    | [] => if c.isWhitespace then [] else [c]
    | d :: ds => c :: d :: ds

/-- Python `str.strip()` on a character list. -/
def trimL (l : List Char) : List Char :=
  dropTrailingWs (l.dropWhile Char.isWhitespace)

/-- Worker for Python `str.split()` (split on whitespace runs, no empty
words): `acc` is the current word accumulated in reverse. -/
def wordsAux : List Char → List Char → List (List Char)
  | [], acc => if acc.isEmpty then [] else [acc.reverse]
  | c :: cs, acc =>
    if c.isWhitespace then
      if acc.isEmpty then wordsAux cs [] else acc.reverse :: wordsAux cs []
    else
      wordsAux cs (c :: acc)

/-- Python `str.split()` on a character list. -/
def wordsL (l : List Char) : List (List Char) := wordsAux l []

/-- A word produced by splitting: non-empty and free of whitespace. -/
def goodWord (w : List Char) : Prop :=
  w ≠ [] ∧ ∀ c ∈ w, ¬c.isWhitespace

/-- Python `' '.join(words)` on character lists. -/
def joinWords (ws : List (List Char)) : List Char :=
  (ws.intersperse [' ']).flatten

/-- Python `s.strip()` as a `String` function; this also models
BeautifulSoup's `get_text(strip=True)` for a cell holding one text node. -/
def stripText (s : String) : String := String.mk (trimL s.data)

/-- Python `' '.join(s.strip().split())` — the body-cell normalizer of
`extract_table_data_with_bs4` (`' '.join(col.get_text(strip=True).split())`). -/
def normalizeText (s : String) : String :=
  String.mk (joinWords (wordsL (trimL s.data)))

/-! ### Structured table extractor (`extract_table_data_with_bs4`) -/

/-- A parsed `<table>`: the `th` texts of its `thead` (if present) and the
`td` texts of each `tr` of its `tbody` (if present).  Each cell is modelled
by the text BeautifulSoup would visit in it. -/
structure HtmlTable where
  thead : Option (List String)
  tbody : Option (List (List String))
deriving DecidableEq

/-- Header part of the extraction: the stripped `th` texts, kept only when at
least one of them is non-blank (`if any(headers)` in the source). -/
def headerLineCells (t : HtmlTable) : List (List String) :=
  match t.thead with
  | none => []
  | some ths =>
    if (ths.map stripText).any (fun h => h != "") then [ths.map stripText]
    else []

/-- Body part of the extraction: each row's cells normalized by
`' '.join(cell.get_text(strip=True).split())`, keeping only rows with some
non-blank cell (`if any(row_data)` in the source). -/
def bodyLineCells (t : HtmlTable) : List (List String) :=
  match t.tbody with
  | none => []
  | some trs =>
    (trs.map (fun tds => tds.map normalizeText)).filter
      (fun row => row.any (fun c => c != ""))

/-- The rows (as cell lists) appended by `extract_table_data_with_bs4`, in
order: kept header first, then kept body rows. -/
def tableRows (t : HtmlTable) : List (List String) :=
  headerLineCells t ++ bodyLineCells t

/-- `extract_table_data_with_bs4(driver, table_id, delimiter)`: the input is
the table found in the page source (`none` when `soup.find` returns no table;
the source then returns `""`, an empty sequence, modelled as `[]`).  Each
kept row is emitted as its cells joined with `delimiter`. -/
def extract_table_data_with_bs4 (tbl : Option HtmlTable) (delim : String) :
    List String :=
  match tbl with
  | none => []
  | some t => (tableRows t).map (fun cells => String.intercalate delim cells)

/-! ### Pagination walker (`extract_table_data_with_pagination`) -/

/-- Starts-with test on character lists. -/
def startsWithChars : List Char → List Char → Bool
  | [], _ => true
  | _ :: _, [] => false
  | a :: as, b :: bs => a == b && startsWithChars as bs

/-- Contiguous-substring test on character lists. -/
def hasSubChars (needle : List Char) : List Char → Bool
  | [] => needle.isEmpty
  | c :: cs => startsWithChars needle (c :: cs) || hasSubChars needle cs

/-- Python `needle in haystack` substring test. -/
def containsSub (needle haystack : String) : Bool :=
  hasSubChars needle.data haystack.data

/-- The browser state seen by one iteration of the pagination loop.
`tableReady` is whether both waits (table present, tbody has a row) succeed —
a failure raises and is caught by the loop's outer `except`, which breaks.
`table` is the table BeautifulSoup finds in `page_source`.  `next` is the
`class` attribute of the next button when the wait for it succeeds, `none`
when that wait times out (the inner `except` then breaks). -/
structure PageView where
  tableReady : Bool
  table : Option HtmlTable
  next : Option String

/-- The next-button check of the source: the loop continues only when the
button is found and `"disabled" in next_button.get_attribute("class")` is
false. -/
def nextEnabledB (pv : PageView) : Bool :=
  match pv.next with
  | none => false
  | some cls => !(containsSub "disabled" cls)

/-- One iteration of the `while True` loop of
`extract_table_data_with_pagination`, for the current `page` counter: a wait
failure breaks with the rows accumulated so far; otherwise the page's
extraction is appended (page 1 whole, later pages with `[1:]`), and the walk
continues exactly when the next button is present and not disabled. -/
def paginationAux (delim : String) : List PageView → Nat → List String
  | [], _ => []
  | pv :: rest, page =>
    if pv.tableReady then
      (if page = 1 then extract_table_data_with_bs4 pv.table delim
       else (extract_table_data_with_bs4 pv.table delim).drop 1) ++
        (if nextEnabledB pv then paginationAux delim rest (page + 1) else [])
    else []

/-- All rows accumulated by the pagination walk (`all_rows` at the final
`return`). -/
def paginationRows (delim : String) (script : List PageView) : List String :=
  paginationAux delim script 1

/-- `extract_table_data_with_pagination`: the accumulated rows joined with
newline. -/
def extract_table_data_with_pagination (script : List PageView)
    (delim : String) : String :=
  String.intercalate "\n" (paginationRows delim script)

/-- A script describes exactly the pages a walk visits: every visited page's
waits succeed, every page but the last has an enabled next button, and the
walk stops at the last page (disabled or missing next button), or the script
ends exactly when the walk clicks past its last page. -/
def walkChain : List PageView → Bool
  | [] => true
  | pv :: rest =>
    pv.tableReady && (if nextEnabledB pv then walkChain rest else rest.isEmpty)

/-- The header-first invariant the merge policy relies on: the page's
extraction starts with the header line `hdr`, and contains it exactly once. -/
def headerOnce (delim hdr : String) (pv : PageView) : Prop :=
  (extract_table_data_with_bs4 pv.table delim).head? = some hdr ∧
    (extract_table_data_with_bs4 pv.table delim).count hdr = 1

instance (delim hdr : String) (pv : PageView) : Decidable (headerOnce delim hdr pv) := by
  unfold headerOnce; infer_instance

/-! ### Visual solver client (`solve_captcha_with_gpt4`) -/

/-- Behavior of the HTTP POST to the solver service: a transport error
(any `requests` exception, carrying its message), or a response with a
status, the message `raise_for_status()` would raise for it, and the body —
`Except.ok text` when `resp.json()["choices"][0]["message"]["content"]`
yields `text`, `Except.error msg` when that expression raises `msg`. -/
inductive NetBehavior where
  | transportError (msg : String)
  | httpResponse (status : Nat) (httpErrMsg : String) (body : Except String String)

/-- `solve_captcha_with_gpt4(captcha_image)`: `None` input returns `None`
immediately; otherwise one network call is made (second component counts the
calls), any exception is re-raised as `IECScraperException("GPT-4 API error:
" + str(e))`, `raise_for_status()` rejects statuses `>= 400`, and on success
the first choice's content is returned stripped. -/
def solve_captcha_with_gpt4 (img : Option Unit) (net : NetBehavior) :
    Except String (Option String) × Nat :=
  match img with
  | none => (Except.ok none, 0)
  | some _ =>
    match net with
    | NetBehavior.transportError m =>
      (Except.error ("GPT-4 API error: " ++ m), 1)
    | NetBehavior.httpResponse status httpErrMsg body =>
      if 400 ≤ status then (Except.error ("GPT-4 API error: " ++ httpErrMsg), 1)
      else
        match body with
        | Except.error m => (Except.error ("GPT-4 API error: " ++ m), 1)
        | Except.ok text => (Except.ok (some (stripText text)), 1)

/-! ### CAPTCHA resolution loop (`handle_captcha_submission`) -/

/-- Environment of one attempt of the loop.  `capture` is the outcome of
`capture_captcha_section` (`Except.error` when it raises something other
than the timeout it swallows, `Except.ok` with the optional image otherwise);
`net` drives the solver call; `fill` is the wait/clear/send_keys on the
CAPTCHA input; `click` the wait/click on the submit button; `verify` the
wait for the success heading (`Except.ok none` on its swallowed timeout,
`Except.ok (some t)` when the heading is found with text `t`). -/
structure AttemptEnv where
  capture : Except String (Option Unit)
  net : NetBehavior
  fill : Except String Unit
  click : Except String Unit
  verify : Except String (Option String)

/-- Observable effects of one attempt: solver network calls issued, whether
the CAPTCHA input was filled, whether submit was clicked, and whether the
attempt returned success. -/
structure AttemptTrace where
  solveCalls : Nat
  filled : Bool
  clicked : Bool
  success : Bool
deriving DecidableEq

/-- One iteration of the `while attempt < max_attempts` loop: any exception
is caught by the iteration's `try`/`except` (so every branch produces a
trace); a falsy solved text (`None` or `""`) skips straight to the next
attempt without touching the input or the button; a found success heading
succeeds only if its text contains `"IEC Details"`. -/
def runAttempt (env : AttemptEnv) : AttemptTrace :=
  match env.capture with
  | Except.error _ => ⟨0, false, false, false⟩
  | Except.ok img =>
    match (solve_captcha_with_gpt4 img env.net).1 with
    | Except.error _ => ⟨(solve_captcha_with_gpt4 img env.net).2, false, false, false⟩
    | Except.ok none => ⟨(solve_captcha_with_gpt4 img env.net).2, false, false, false⟩
    | Except.ok (some text) =>
      if text = "" then ⟨(solve_captcha_with_gpt4 img env.net).2, false, false, false⟩
      else
        match env.fill with
        | Except.error _ => ⟨(solve_captcha_with_gpt4 img env.net).2, false, false, false⟩
        | Except.ok _ =>
          match env.click with
          | Except.error _ => ⟨(solve_captcha_with_gpt4 img env.net).2, true, false, false⟩
          | Except.ok _ =>
            match env.verify with
            | Except.error _ => ⟨(solve_captcha_with_gpt4 img env.net).2, true, true, false⟩
            | Except.ok none => ⟨(solve_captcha_with_gpt4 img env.net).2, true, true, false⟩
            | Except.ok (some t) =>
              ⟨(solve_captcha_with_gpt4 img env.net).2, true, true,
                containsSub "IEC Details" t⟩

/-- The attempt loop: `attempt` is the current counter value, the second
argument the remaining budget (`max_attempts - attempt`).  Returns the
result of `handle_captcha_submission` together with the trace of every
attempt executed, in order. -/
def captchaAux (envs : Nat → AttemptEnv) : Nat → Nat → Bool × List AttemptTrace
  | _, 0 => (false, [])
  | attempt, rem + 1 =>
    if (runAttempt (envs attempt)).success then (true, [runAttempt (envs attempt)])
    else
      ((captchaAux envs (attempt + 1) rem).1,
        runAttempt (envs attempt) :: (captchaAux envs (attempt + 1) rem).2)

/-- `handle_captcha_submission(driver)` with `max_attempts = 5`, starting at
`attempt = 0`. -/
def handle_captcha_submission (envs : Nat → AttemptEnv) :
    Bool × List AttemptTrace :=
  captchaAux envs 0 5

/-- Total number of solver network calls recorded in a trace. -/
def traceCalls (trs : List AttemptTrace) : Nat :=
  (trs.map (fun t => t.solveCalls)).sum

/-- An attempt whose solved text comes back falsy (absent image, hence
`None`, or an empty token). -/
def blankSolve (env : AttemptEnv) : Prop :=
  ∃ img, env.capture = Except.ok img ∧
    ((solve_captcha_with_gpt4 img env.net).1 = Except.ok none ∨
      (solve_captcha_with_gpt4 img env.net).1 = Except.ok (some ""))

/-! ### Request handler (`get_iec_details`) -/

/-- Python `key in data` for the parsed JSON object, modelled as an ordered
key/value list. -/
def hasKey (d : List (String × String)) (k : String) : Bool :=
  d.any (fun kv => kv.1 == k)

/-- Python `data[key]` for a key known to be present (first binding). -/
def lookupKey (d : List (String × String)) (k : String) : String :=
  match d.find? (fun kv => kv.1 == k) with
  | some kv => kv.2
  | none => ""

/-- Environment of one request: outcome of `create_driver()`, of the
navigation steps up to and including the two `send_keys` (exceptions carry
`str(e)`), the per-attempt CAPTCHA environments, the outcome of
`extract_iec_details`, and the page script of the branch-table pagination. -/
structure HandlerEnv where
  createDriver : Except String Unit
  nav : Except String Unit
  captchaEnvs : Nat → AttemptEnv
  detailsResult : Except String String
  branchScript : List PageView

/-- Observable response of `get_iec_details`, plus whether `create_driver()`
was reached (`driverRequested`) and which strings were typed into the two
form fields (`sentInputs`, `none` when the navigation never got there). -/
structure HandlerResult where
  status : Nat
  success : Bool
  error : Option String
  details : Option (String × String)
  driverRequested : Bool
  sentInputs : Option (String × String)
deriving DecidableEq

/-- The 400 response of the missing-parameter guard. -/
def missingParamsResp : HandlerResult :=
  ⟨400, false, some "Missing required parameters: iec_code and name", none,
    false, none⟩

/-- `get_iec_details()`: `req` is the result of `request.get_json()` (`none`
when it yields no JSON object).  The guard `if not data or 'iec_code' not in
data or 'name' not in data` rejects with 400 before any driver work; driver
or navigation exceptions become 500 with `str(e)`; a false
`handle_captcha_submission` becomes the dedicated 400; an
`extract_iec_details` exception becomes 500; otherwise 200 with both detail
blocks. -/
def get_iec_details (req : Option (List (String × String)))
    (env : HandlerEnv) : HandlerResult :=
  match req with
  | none => missingParamsResp
  | some data =>
    if data.isEmpty || !(hasKey data "iec_code") || !(hasKey data "name") then
      missingParamsResp
    else
      let iec := lookupKey data "iec_code"
      let nm := lookupKey data "name"
      match env.createDriver with
      | Except.error e => ⟨500, false, some e, none, true, none⟩
      | Except.ok _ =>
        match env.nav with
        | Except.error e => ⟨500, false, some e, none, true, none⟩
        | Except.ok _ =>
          if (handle_captcha_submission env.captchaEnvs).1 then
            match env.detailsResult with
            | Except.error e => ⟨500, false, some e, none, true, some (iec, nm)⟩
            | Except.ok d =>
              ⟨200, true, none,
                some (d, extract_table_data_with_pagination env.branchScript ";"),
                true, some (iec, nm)⟩
          else
            ⟨400, false, some "Failed to solve captcha", none, true,
              some (iec, nm)⟩

/-! ### Concrete fixtures used to instantiate the theorems -/

/-- A two-column branch table as on page 1 of the walk. -/
def demoTable1 : HtmlTable :=
  ⟨some ["Branch", "City"], some [["a", "b"], ["c", "d"]]⟩

/-- The same table on page 2 of the walk. -/
def demoTable2 : HtmlTable := ⟨some ["Branch", "City"], some [["e", "f"]]⟩

/-- Page 1: ready, table present, next button enabled. -/
def demoPage1 : PageView := ⟨true, some demoTable1, some "paginate_button"⟩

/-- Page 2: ready, table present, next button disabled. -/
def demoPage2 : PageView :=
  ⟨true, some demoTable2, some "paginate_button disabled"⟩

/-- A table whose single header cell has an internal whitespace run. -/
def c4Table : HtmlTable := ⟨some ["A  B"], none⟩

/-- An attempt environment in which every step raises. -/
def allRaiseEnv : AttemptEnv :=
  ⟨Except.error "boom", NetBehavior.transportError "down", Except.error "x",
    Except.error "y", Except.error "z"⟩

/-- An attempt environment whose solver call returns an empty token. -/
def blankEnv : AttemptEnv :=
  ⟨Except.ok (some ()), NetBehavior.httpResponse 200 "OK" (Except.ok ""),
    Except.ok (), Except.ok (), Except.ok none⟩

/-- A handler environment with working driver and navigation whose CAPTCHA
attempts all raise. -/
def demoEnv : HandlerEnv :=
  ⟨Except.ok (), Except.ok (), fun _ => allRaiseEnv, Except.ok "", []⟩

/-! ### Algebra of the string primitives -/

theorem dtw_cons (c : Char) (cs : List Char) :
    dropTrailingWs (c :: cs) =
      match dropTrailingWs cs with
      | [] => if c.isWhitespace then [] else [c]
      | d :: ds => c :: d :: ds := rfl

theorem wordsAux_cons_not_ws (c : Char) (hc : ¬(c.isWhitespace = true))
    (l acc : List Char) : wordsAux (c :: l) acc = wordsAux l (c :: acc) := by
  simp [wordsAux, hc]

theorem wordsAux_nil_cons (a : Char) (as : List Char) :
    wordsAux [] (a :: as) = [(a :: as).reverse] := by
  simp [wordsAux]

theorem wordsAux_good (l : List Char) :
    ∀ acc, (∀ c ∈ acc, ¬c.isWhitespace) → ∀ w ∈ wordsAux l acc, goodWord w := by
  induction l with
  | nil =>
    intro acc hacc w hw
    cases acc with
    | nil => simp [wordsAux] at hw
    | cons a as =>
      simp [wordsAux] at hw
      subst hw
      refine ⟨by simp, fun c hc => hacc c ?_⟩
      rw [← List.reverse_cons] at hc
      exact List.mem_reverse.mp hc
  | cons ch cs ih =>
    intro acc hacc w hw
    by_cases hws : ch.isWhitespace = true
    · cases acc with
      | nil =>
        simp [wordsAux, hws] at hw
        exact ih [] (by simp) w hw
      | cons a as =>
        simp [wordsAux, hws] at hw
        rcases hw with hw | hw
        · subst hw
          refine ⟨by simp, fun c hc => hacc c ?_⟩
          rw [← List.reverse_cons] at hc
          exact List.mem_reverse.mp hc
        · exact ih [] (by simp) w hw
    · simp only [wordsAux, hws, if_false] at hw
      refine ih (ch :: acc) ?_ w hw
      intro c hc
      rcases List.mem_cons.mp hc with rfl | hc
      · simpa using hws
      · exact hacc c hc

theorem wordsAux_eat (w : List Char) :
    ∀ (l acc : List Char), (∀ c ∈ w, ¬c.isWhitespace) →
      wordsAux (w ++ l) acc = wordsAux l (w.reverse ++ acc) := by
  induction w with
  | nil => intro l acc _; simp
  | cons c w' ih =>
    intro l acc hw
    have hc : ¬(c.isWhitespace = true) := hw c (by simp)
    rw [List.cons_append, wordsAux_cons_not_ws c hc,
      ih l (c :: acc) (fun d hd => hw d (List.mem_cons_of_mem c hd))]
    simp

theorem wordsAux_ws (c : Char) (hc : c.isWhitespace = true) (l acc : List Char)
    (hacc : acc ≠ []) :
    wordsAux (c :: l) acc = acc.reverse :: wordsAux l [] := by
  cases acc with
  | nil => exact absurd rfl hacc
  | cons a as => simp [wordsAux, hc]

theorem joinWords_single (w : List Char) : joinWords [w] = w := by
  simp [joinWords]

theorem joinWords_cons (w v : List Char) (ws : List (List Char)) :
    joinWords (w :: v :: ws) = w ++ (' ' :: joinWords (v :: ws)) := by
  simp [joinWords, List.intersperse]

theorem joinWords_ne_nil (ws : List (List Char)) (hne : ws ≠ [])
    (hgood : ∀ w ∈ ws, goodWord w) : joinWords ws ≠ [] := by
  cases ws with
  | nil => exact absurd rfl hne
  | cons w ws' =>
    have hw := hgood w (by simp)
    cases ws' with
    | nil =>
      rw [joinWords_single]
      exact hw.1
    | cons v ws'' =>
      rw [joinWords_cons]
      cases w with
      | nil => exact absurd rfl hw.1
      | cons a as => simp

theorem wordsL_goodWord (w : List Char) (h : goodWord w) : wordsL w = [w] := by
  unfold wordsL
  have h1 : wordsAux (w ++ []) [] = wordsAux [] (w.reverse ++ []) :=
    wordsAux_eat w [] [] h.2
  rw [List.append_nil] at h1
  rw [h1, List.append_nil]
  cases hw : w.reverse with
  | nil => exact absurd (List.reverse_eq_nil_iff.mp hw) h.1
  | cons a as =>
    rw [wordsAux_nil_cons, ← hw, List.reverse_reverse]

theorem wordsL_joinWords (ws : List (List Char))
    (hgood : ∀ w ∈ ws, goodWord w) : wordsL (joinWords ws) = ws := by
  induction ws with
  | nil => rfl
  | cons w ws' ih =>
    have hw := hgood w (by simp)
    cases ws' with
    | nil =>
      rw [joinWords_single]
      exact wordsL_goodWord w hw
    | cons v ws'' =>
      rw [joinWords_cons]
      unfold wordsL
      have h1 := wordsAux_eat w (' ' :: joinWords (v :: ws'')) [] hw.2
      rw [List.append_nil] at h1
      rw [h1, wordsAux_ws ' ' (by decide) _ _ (by simpa using hw.1)]
      have ih' := ih (fun u hu => hgood u (by simp [hu]))
      unfold wordsL at ih'
      rw [ih']
      simp

theorem dtw_goodWord (w : List Char) (h : goodWord w) : dropTrailingWs w = w := by
  induction w with
  | nil => exact absurd rfl h.1
  | cons c w' ih =>
    have hc : ¬(c.isWhitespace = true) := h.2 c (by simp)
    cases w' with
    | nil => simp [dropTrailingWs, hc]
    | cons d w'' =>
      have ih' : dropTrailingWs (d :: w'') = d :: w'' :=
        ih ⟨by simp, fun e he => h.2 e (by simp [List.mem_cons.mp he])⟩
      rw [dtw_cons, ih']

theorem dtw_append (x y : List Char) (hy : dropTrailingWs y = y) (hne : y ≠ []) :
    dropTrailingWs (x ++ y) = x ++ y := by
  induction x with
  | nil => simpa using hy
  | cons c x' ih =>
    have hxy : x' ++ y ≠ [] := fun hh => hne (List.append_eq_nil.mp hh).2
    rw [List.cons_append, dtw_cons, ih]
    cases h : x' ++ y with
    | nil => exact absurd h hxy
    | cons a as => rfl

theorem dtw_idem (x : List Char) :
    dropTrailingWs (dropTrailingWs x) = dropTrailingWs x := by
  induction x with
  | nil => rfl
  | cons c cs ih =>
    cases h : dropTrailingWs cs with
    | nil =>
      by_cases hc : c.isWhitespace = true
      · simp [dropTrailingWs, h, hc]
      · simp [dropTrailingWs, h, hc]
    | cons d ds =>
      have h2 : dropTrailingWs (d :: ds) = d :: ds := by
        rw [← h, ih, h]
      have hcc : dropTrailingWs (c :: cs) = c :: d :: ds := by
        rw [dtw_cons, h]
      rw [hcc, dtw_cons, h2]

theorem dtw_cons_shape (c : Char) (cs : List Char) :
    dropTrailingWs (c :: cs) = [] ∨ ∃ r, dropTrailingWs (c :: cs) = c :: r := by
  cases h : dropTrailingWs cs with
  | nil =>
    by_cases hc : c.isWhitespace = true
    · left; simp [dropTrailingWs, h, hc]
    · right; exact ⟨[], by simp [dropTrailingWs, h, hc]⟩
  | cons d ds =>
    right; exact ⟨d :: ds, by simp [dropTrailingWs, h]⟩

theorem dropWhile_cons_head (p : Char → Bool) (l : List Char) (c : Char)
    (cs : List Char) (h : l.dropWhile p = c :: cs) : p c = false := by
  induction l with
  | nil => simp at h
  | cons a as ih =>
    by_cases ha : p a = true
    · rw [List.dropWhile_cons] at h
      simp only [ha, if_true] at h
      exact ih h
    · rw [List.dropWhile_cons] at h
      simp only [ha, if_false] at h
      cases h
      simpa using ha

theorem trimL_idem (l : List Char) : trimL (trimL l) = trimL l := by
  unfold trimL
  cases hd : l.dropWhile Char.isWhitespace with
  | nil => simp [dropTrailingWs]
  | cons c cs =>
    have hc : Char.isWhitespace c = false := dropWhile_cons_head _ _ _ _ hd
    rcases dtw_cons_shape c cs with h0 | ⟨r, hr⟩
    · rw [h0]
      simp [dropTrailingWs]
    · rw [hr, List.dropWhile_cons]
      simp only [hc, if_false]
      rw [← hr]
      exact dtw_idem _

theorem dropWhile_joinWords (ws : List (List Char))
    (hgood : ∀ w ∈ ws, goodWord w) :
    (joinWords ws).dropWhile Char.isWhitespace = joinWords ws := by
  cases ws with
  | nil => rfl
  | cons w ws' =>
    have hw := hgood w (by simp)
    obtain ⟨t, ht⟩ : ∃ t, joinWords (w :: ws') = w ++ t := by
      cases ws' with
      | nil => exact ⟨[], by simp [joinWords_single]⟩
      | cons v ws'' => exact ⟨' ' :: joinWords (v :: ws''), joinWords_cons w v ws''⟩
    cases w with
    | nil => exact absurd rfl hw.1
    | cons c w'' =>
      have hc : ¬(c.isWhitespace = true) := hw.2 c (by simp)
      rw [ht]
      simp [List.cons_append, List.dropWhile_cons, hc]

theorem dtw_joinWords (ws : List (List Char))
    (hgood : ∀ w ∈ ws, goodWord w) :
    dropTrailingWs (joinWords ws) = joinWords ws := by
  induction ws with
  | nil => rfl
  | cons w ws' ih =>
    have hw := hgood w (by simp)
    cases ws' with
    | nil =>
      rw [joinWords_single]
      exact dtw_goodWord w hw
    | cons v ws'' =>
      rw [joinWords_cons]
      have hJne : joinWords (v :: ws'') ≠ [] :=
        joinWords_ne_nil _ (by simp) (fun u hu => hgood u (by simp [hu]))
      have hJ : dropTrailingWs (joinWords (v :: ws'')) = joinWords (v :: ws'') :=
        ih (fun u hu => hgood u (by simp [hu]))
      have hy : dropTrailingWs (' ' :: joinWords (v :: ws'')) =
          ' ' :: joinWords (v :: ws'') := by
        cases hJc : joinWords (v :: ws'') with
        | nil => exact absurd hJc hJne
        | cons a as =>
          rw [hJc] at hJ
          rw [dtw_cons, hJ]
      exact dtw_append w _ hy (by simp)

theorem trimL_joinWords (ws : List (List Char))
    (hgood : ∀ w ∈ ws, goodWord w) : trimL (joinWords ws) = joinWords ws := by
  unfold trimL
  rw [dropWhile_joinWords ws hgood, dtw_joinWords ws hgood]

theorem stripText_idem (s : String) : stripText (stripText s) = stripText s := by
  unfold stripText
  exact congrArg String.mk (trimL_idem s.data)

theorem normalizeText_idem (s : String) :
    normalizeText (normalizeText s) = normalizeText s := by
  unfold normalizeText
  have hgood : ∀ w ∈ wordsL (trimL s.data), goodWord w :=
    wordsAux_good _ [] (by simp)
  exact congrArg String.mk
    (by rw [show (String.mk (joinWords (wordsL (trimL s.data)))).data =
          joinWords (wordsL (trimL s.data)) from rfl,
        trimL_joinWords _ hgood, wordsL_joinWords _ hgood])

/-! ### Lemmas about the table extractor -/

theorem mem_headerLineCells (t : HtmlTable) (row : List String)
    (h : row ∈ headerLineCells t) :
    ∃ ths, t.thead = some ths ∧ row = ths.map stripText ∧
      (ths.map stripText).any (fun c => c != "") = true := by
  obtain ⟨th, tb⟩ := t
  cases th with
  | none => simp [headerLineCells] at h
  | some ths =>
    by_cases hany : (ths.map stripText).any (fun c => c != "") = true
    · simp only [headerLineCells, hany, if_true, List.mem_singleton] at h
      exact ⟨ths, rfl, h, hany⟩
    · simp [headerLineCells, hany] at h

theorem mem_bodyLineCells (t : HtmlTable) (row : List String)
    (h : row ∈ bodyLineCells t) :
    ∃ trs tds, t.tbody = some trs ∧ tds ∈ trs ∧ row = tds.map normalizeText ∧
      row.any (fun c => c != "") = true := by
  obtain ⟨th, tb⟩ := t
  cases tb with
  | none => simp [bodyLineCells] at h
  | some trs =>
    simp only [bodyLineCells] at h
    have h2 := List.mem_filter.mp h
    obtain ⟨tds, htds, heq⟩ := List.mem_map.mp h2.1
    exact ⟨trs, tds, rfl, htds, heq.symm, h2.2⟩

/-- C3: for a page source without the identified table,
`extract_table_data_with_bs4` returns an empty sequence of line strings
rather than an error (the source returns the empty sequence `""`); when the
table exists and its header is kept, the output's first line is the
delimiter-joined header. -/
theorem c3_extractor_contract (delim : String) :
    extract_table_data_with_bs4 none delim = [] ∧
    ∀ t hs, headerLineCells t = [hs] →
      (extract_table_data_with_bs4 (some t) delim).head? =
        some (String.intercalate delim hs) := by
  refine ⟨rfl, ?_⟩
  intro t hs hh
  show ((tableRows t).map (fun cells => String.intercalate delim cells)).head? =
    some (String.intercalate delim hs)
  unfold tableRows
  rw [hh]
  simp

theorem c3_extractor_contract_witness :
    extract_table_data_with_bs4 none ";" = [] ∧
    (extract_table_data_with_bs4
        (some ⟨some ["Branch", "City"], some [["a", "b"]]⟩) ";").head? =
      some (String.intercalate ";" ["Branch", "City"]) :=
  ⟨(c3_extractor_contract ";").1,
    (c3_extractor_contract ";").2 ⟨some ["Branch", "City"], some [["a", "b"]]⟩
      ["Branch", "City"] (by decide)⟩

/-- C4 counterexample: the header cell `"A  B"` survives extraction with its
internal double space — it is neither collapsed (`normalizeText` changes it)
nor equal to a whitespace-normalized string, refuting the claim that every
extracted cell is whitespace-normalized. -/
theorem c4_counterexample :
    ¬(∀ row ∈ tableRows c4Table, ∀ c ∈ row, normalizeText c = c) := by
  intro h
  exact absurd (h ["A  B"] (by decide) "A  B" (by decide)) (by decide)

/-- C4 (amended): body cells are whitespace-normalized (fixed points of the
collapse-and-trim normalizer), while header cells are only stripped of
leading and trailing whitespace (internal runs are preserved). -/
theorem c4_cells_normalized (t : HtmlTable) :
    (∀ row ∈ bodyLineCells t, ∀ c ∈ row, normalizeText c = c) ∧
    (∀ row ∈ headerLineCells t, ∀ c ∈ row, stripText c = c) := by
  constructor
  · intro row hrow c hc
    obtain ⟨trs, tds, _, _, hrow2, _⟩ := mem_bodyLineCells t row hrow
    rw [hrow2] at hc
    obtain ⟨raw, _, rfl⟩ := List.mem_map.mp hc
    exact normalizeText_idem raw
  · intro row hrow c hc
    obtain ⟨ths, _, hrow2, _⟩ := mem_headerLineCells t row hrow
    rw [hrow2] at hc
    obtain ⟨raw, _, rfl⟩ := List.mem_map.mp hc
    exact stripText_idem raw

theorem c4_cells_normalized_witness : normalizeText "a b" = "a b" :=
  (c4_cells_normalized ⟨none, some [["a  b"]]⟩).1 ["a b"] (by decide) "a b"
    (by decide)

/-- C5: every line emitted by the extractor has some non-blank field: the
header line is kept only when some header cell is non-blank, and body rows
whose cells are all blank are filtered out. -/
theorem c5_no_blank_rows (t : HtmlTable) (delim : String) (row : List String)
    (hrow : row ∈ tableRows t) :
    String.intercalate delim row ∈ extract_table_data_with_bs4 (some t) delim ∧
    ∃ c ∈ row, c ≠ "" := by
  constructor
  · exact List.mem_map_of_mem _ hrow
  · rcases List.mem_append.mp hrow with hh | hb
    · obtain ⟨ths, _, hrow2, hany⟩ := mem_headerLineCells t row hh
      rw [← hrow2] at hany
      obtain ⟨c, hc, hcne⟩ := List.any_eq_true.mp hany
      exact ⟨c, hc, by simpa using hcne⟩
    · obtain ⟨trs, tds, _, _, _, hany⟩ := mem_bodyLineCells t row hb
      obtain ⟨c, hc, hcne⟩ := List.any_eq_true.mp hany
      exact ⟨c, hc, by simpa using hcne⟩

theorem c5_no_blank_rows_witness :
    String.intercalate ";" ["Branch", "City"] ∈
      extract_table_data_with_bs4 (some demoTable1) ";" ∧
    ∃ c ∈ ["Branch", "City"], c ≠ "" :=
  c5_no_blank_rows demoTable1 ";" ["Branch", "City"] (by decide)

/-! ### Lemmas about the pagination walker -/

theorem pagAux_cons (delim : String) (pv : PageView) (rest : List PageView)
    (page : Nat) :
    paginationAux delim (pv :: rest) page =
      if pv.tableReady then
        (if page = 1 then extract_table_data_with_bs4 pv.table delim
         else (extract_table_data_with_bs4 pv.table delim).drop 1) ++
          (if nextEnabledB pv then paginationAux delim rest (page + 1) else [])
      else [] := rfl

theorem count_flatten_zero (a : String) (L : List (List String))
    (h : ∀ l ∈ L, l.count a = 0) : L.flatten.count a = 0 := by
  induction L with
  | nil => simp
  | cons l L2 ih =>
    rw [List.flatten_cons, List.count_append, h l (by simp),
      ih (fun x hx => h x (by simp [hx]))]

theorem paginationAux_tail (delim : String) (script : List PageView) :
    ∀ page, 2 ≤ page → walkChain script = true →
      paginationAux delim script page =
        (script.map
          (fun pv => (extract_table_data_with_bs4 pv.table delim).drop 1)).flatten := by
  induction script with
  | nil => intro page _ _; rfl
  | cons pv rest ih =>
    intro page hp hchain
    simp only [walkChain, Bool.and_eq_true] at hchain
    obtain ⟨hready, hrest⟩ := hchain
    rw [pagAux_cons, if_pos hready, if_neg (by omega : ¬page = 1),
      List.map_cons, List.flatten_cons]
    by_cases hen : nextEnabledB pv = true
    · rw [if_pos hen] at hrest
      rw [if_pos hen, ih (page + 1) (by omega) hrest]
    · rw [if_neg hen] at hrest
      have hnil : rest = [] := by simpa using hrest
      subst hnil
      rw [if_neg hen]
      simp

theorem headerOnce_split (delim hdr : String) (pv : PageView)
    (h : headerOnce delim hdr pv) :
    ∃ t, extract_table_data_with_bs4 pv.table delim = hdr :: t ∧
      t.count hdr = 0 := by
  obtain ⟨hhead, hcount⟩ := h
  cases hext : extract_table_data_with_bs4 pv.table delim with
  | nil => rw [hext] at hhead; simp at hhead
  | cons x t =>
    rw [hext] at hhead hcount
    have hx : x = hdr := by simpa using hhead
    subst hx
    refine ⟨t, rfl, ?_⟩
    rw [List.count_cons_self] at hcount
    omega

/-- C1: over a walk that visits the pages of `p :: rest` in order (all waits
succeed, every page but the last has an enabled next button), page 1
contributes every extracted line and each later page contributes its lines
with index 0 dropped; provided every page's extraction is header-first with
the header `hdr` occurring exactly once, the accumulated output contains
`hdr` exactly once, regardless of the number of pages. -/
theorem c1_pagination_merge (delim hdr : String) (p : PageView)
    (rest : List PageView) (hchain : walkChain (p :: rest) = true)
    (hhdr : ∀ pv ∈ p :: rest, headerOnce delim hdr pv) :
    extract_table_data_with_pagination (p :: rest) delim =
      String.intercalate "\n" (paginationRows delim (p :: rest)) ∧
    paginationRows delim (p :: rest) =
      extract_table_data_with_bs4 p.table delim ++
        (rest.map
          (fun pv => (extract_table_data_with_bs4 pv.table delim).drop 1)).flatten ∧
    (paginationRows delim (p :: rest)).count hdr = 1 := by
  simp only [walkChain, Bool.and_eq_true] at hchain
  obtain ⟨hready, hrest⟩ := hchain
  have hstruct : paginationRows delim (p :: rest) =
      extract_table_data_with_bs4 p.table delim ++
        (rest.map
          (fun pv => (extract_table_data_with_bs4 pv.table delim).drop 1)).flatten := by
    unfold paginationRows
    rw [pagAux_cons, if_pos hready, if_pos rfl]
    by_cases hen : nextEnabledB p = true
    · rw [if_pos hen] at hrest
      rw [if_pos hen, paginationAux_tail delim rest 2 (by omega) hrest]
    · rw [if_neg hen] at hrest
      have hnil : rest = [] := by simpa using hrest
      subst hnil
      rw [if_neg hen]
      simp
  refine ⟨rfl, hstruct, ?_⟩
  obtain ⟨t1, he1, hc1⟩ := headerOnce_split delim hdr p (hhdr p (by simp))
  have hz : ((rest.map
      (fun pv => (extract_table_data_with_bs4 pv.table delim).drop 1)).flatten).count
        hdr = 0 := by
    refine count_flatten_zero hdr _ ?_
    intro l hl
    obtain ⟨pv, hpv, rfl⟩ := List.mem_map.mp hl
    obtain ⟨t2, he2, hc2⟩ := headerOnce_split delim hdr pv (hhdr pv (by simp [hpv]))
    rw [he2]
    simpa using hc2
  rw [hstruct, List.count_append, he1, List.count_cons_self, hc1, hz]

theorem c1_pagination_merge_witness :
    paginationRows ";" [demoPage1, demoPage2] =
      extract_table_data_with_bs4 demoPage1.table ";" ++
        ([demoPage2].map
          (fun pv => (extract_table_data_with_bs4 pv.table ";").drop 1)).flatten ∧
    (paginationRows ";" [demoPage1, demoPage2]).count "Branch;City" = 1 :=
  ⟨(c1_pagination_merge ";" "Branch;City" demoPage1 [demoPage2] (by decide)
      (by decide)).2.1,
    (c1_pagination_merge ";" "Branch;City" demoPage1 [demoPage2] (by decide)
      (by decide)).2.2⟩

/-! ### Lemmas about the CAPTCHA loop -/

theorem solve_calls_le (img : Option Unit) (net : NetBehavior) :
    (solve_captcha_with_gpt4 img net).2 ≤ 1 := by
  cases img with
  | none => simp [solve_captcha_with_gpt4]
  | some u =>
    cases net with
    | transportError m => simp [solve_captcha_with_gpt4]
    | httpResponse st m body =>
      by_cases h : 400 ≤ st
      · simp [solve_captcha_with_gpt4, h]
      · cases body <;> simp [solve_captcha_with_gpt4, h]

theorem runAttempt_calls_le (env : AttemptEnv) :
    (runAttempt env).solveCalls ≤ 1 := by
  unfold runAttempt
  split
  · simp
  · rename_i img heq
    repeat' split
    all_goals simpa using solve_calls_le img env.net

theorem traceCalls_cons (t : AttemptTrace) (l : List AttemptTrace) :
    traceCalls (t :: l) = t.solveCalls + traceCalls l := by
  simp [traceCalls]

theorem captchaAux_length (envs : Nat → AttemptEnv) :
    ∀ rem attempt, (captchaAux envs attempt rem).2.length ≤ rem := by
  intro rem
  induction rem with
  | zero => intro attempt; simp [captchaAux]
  | succ r ih =>
    intro attempt
    by_cases h : (runAttempt (envs attempt)).success = true
    · simp [captchaAux, h]
    · have := ih (attempt + 1)
      simp only [captchaAux, h, Bool.false_eq_true, if_false, List.length_cons]
      omega

theorem captchaAux_calls (envs : Nat → AttemptEnv) :
    ∀ rem attempt, traceCalls (captchaAux envs attempt rem).2 ≤ rem := by
  intro rem
  induction rem with
  | zero => intro attempt; simp [captchaAux, traceCalls]
  | succ r ih =>
    intro attempt
    have hle := runAttempt_calls_le (envs attempt)
    by_cases h : (runAttempt (envs attempt)).success = true
    · simp only [captchaAux, h, if_true]
      rw [show traceCalls [runAttempt (envs attempt)] =
        (runAttempt (envs attempt)).solveCalls by simp [traceCalls]]
      omega
    · have := ih (attempt + 1)
      simp only [captchaAux, h, Bool.false_eq_true, if_false, traceCalls_cons]
      omega

theorem captchaAux_false (envs : Nat → AttemptEnv) :
    ∀ rem attempt,
      (∀ i, attempt ≤ i → i < attempt + rem →
        (runAttempt (envs i)).success = false) →
      (captchaAux envs attempt rem).1 = false := by
  intro rem
  induction rem with
  | zero => intro attempt h; rfl
  | succ r ih =>
    intro attempt h
    have h0 : (runAttempt (envs attempt)).success = false :=
      h attempt (Nat.le_refl attempt) (by omega)
    have hrec := ih (attempt + 1) (fun i hi1 hi2 => h i (by omega) (by omega))
    simp [captchaAux, h0, hrec]

theorem captchaAux_getElem (envs : Nat → AttemptEnv) :
    ∀ rem attempt i, i < rem →
      (∀ j, j < i → (runAttempt (envs (attempt + j))).success = false) →
      (captchaAux envs attempt rem).2[i]? =
        some (runAttempt (envs (attempt + i))) := by
  intro rem
  induction rem with
  | zero => intro attempt i hi _; exact absurd hi (Nat.not_lt_zero i)
  | succ r ih =>
    intro attempt i hi hprev
    by_cases hs : (runAttempt (envs attempt)).success = true
    · cases i with
      | zero => simp [captchaAux, hs]
      | succ i2 =>
        have h0 := hprev 0 (Nat.succ_pos i2)
        rw [Nat.add_zero] at h0
        rw [h0] at hs
        cases hs
    · cases i with
      | zero => simp [captchaAux, hs]
      | succ i2 =>
        have hrec := ih (attempt + 1) i2 (by omega) (fun j hj => by
          have := hprev (j + 1) (by omega)
          rwa [show attempt + (j + 1) = attempt + 1 + j by omega] at this)
        simp only [captchaAux, hs, Bool.false_eq_true, if_false,
          List.getElem?_cons_succ]
        rw [show attempt + (i2 + 1) = attempt + 1 + i2 by omega]
        exact hrec

/-- C2: across every possible environment behavior — including one in which
every attempt raises — `handle_captcha_submission` runs at most 5 attempts,
issues at most 5 solver calls in total (at most one per attempt), returns a
value rather than propagating any exception, and returns `false` once all 5
attempts have failed. -/
theorem c2_captcha_bounds (envs : Nat → AttemptEnv) :
    traceCalls (handle_captcha_submission envs).2 ≤ 5 ∧
    (handle_captcha_submission envs).2.length ≤ 5 ∧
    ((∀ i, i < 5 → (runAttempt (envs i)).success = false) →
      (handle_captcha_submission envs).1 = false) := by
  refine ⟨captchaAux_calls envs 5 0, captchaAux_length envs 5 0, ?_⟩
  intro h
  exact captchaAux_false envs 5 0 (fun i _ hi => h i (by omega))

theorem c2_captcha_bounds_witness :
    traceCalls (handle_captcha_submission (fun _ => allRaiseEnv)).2 ≤ 5 ∧
    (handle_captcha_submission (fun _ => allRaiseEnv)).1 = false :=
  ⟨(c2_captcha_bounds (fun _ => allRaiseEnv)).1,
    (c2_captcha_bounds (fun _ => allRaiseEnv)).2.2 (fun _ _ => rfl)⟩

/-- C9: an attempt whose solved text is empty or absent produces exactly one
trace entry (it consumes exactly one unit of the 5-attempt budget), and in
that attempt the CAPTCHA input is never filled and the submit button never
clicked. -/
theorem c9_blank_attempt (envs : Nat → AttemptEnv) (i : Nat) (hi : i < 5)
    (hprev : ∀ j, j < i → (runAttempt (envs j)).success = false)
    (hblank : blankSolve (envs i)) :
    (handle_captcha_submission envs).2[i]? = some (runAttempt (envs i)) ∧
    (runAttempt (envs i)).filled = false ∧
    (runAttempt (envs i)).clicked = false ∧
    (runAttempt (envs i)).success = false ∧
    (handle_captcha_submission envs).2.length ≤ 5 := by
  obtain ⟨img, hcap, hsol⟩ := hblank
  have htr : runAttempt (envs i) =
      ⟨(solve_captcha_with_gpt4 img (envs i).net).2, false, false, false⟩ := by
    rcases hsol with hs | hs
    · simp only [runAttempt, hcap, hs]
    · simp only [runAttempt, hcap, hs]
      simp
  have hget : (handle_captcha_submission envs).2[i]? =
      some (runAttempt (envs i)) := by
    have := captchaAux_getElem envs 5 0 i hi (fun j hj => by
      simpa using hprev j hj)
    simpa using this
  exact ⟨hget, by rw [htr], by rw [htr], by rw [htr],
    captchaAux_length envs 5 0⟩

theorem c9_blank_attempt_witness :
    (handle_captcha_submission (fun _ => blankEnv)).2[0]? =
      some (runAttempt blankEnv) ∧
    (runAttempt blankEnv).filled = false ∧
    (runAttempt blankEnv).clicked = false ∧
    (runAttempt blankEnv).success = false ∧
    (handle_captcha_submission (fun _ => blankEnv)).2.length ≤ 5 :=
  c9_blank_attempt (fun _ => blankEnv) 0 (by omega)
    (fun j hj => absurd hj (Nat.not_lt_zero j))
    ⟨some (), rfl, Or.inr rfl⟩

/-! ### The solver client claims -/

/-- C8 counterexample: a non-2xx response (status 301) whose body parses as
the expected JSON makes `solve_captcha_with_gpt4` return a token instead of
failing — `raise_for_status()` only rejects statuses at or above 400. -/
theorem c8_counterexample :
    ¬(200 ≤ 301 ∧ 301 < 300) ∧
    (solve_captcha_with_gpt4 (some ())
        (NetBehavior.httpResponse 301 "301 Moved Permanently"
          (Except.ok "ABCD"))).1 = Except.ok (some "ABCD") := by
  refine ⟨by omega, ?_⟩
  rfl

/-- C8 (amended): with an absent image the solver returns `none` and issues
no network call, for any network behavior; with an image present, any
transport error, or any response with status at or above 400 (the statuses
`raise_for_status()` rejects), raises a service error carrying the upstream
message instead of returning a token. -/
theorem c8_solver_errors :
    (∀ net, solve_captcha_with_gpt4 none net = (Except.ok none, 0)) ∧
    (∀ m, solve_captcha_with_gpt4 (some ()) (NetBehavior.transportError m) =
      (Except.error ("GPT-4 API error: " ++ m), 1)) ∧
    (∀ st m body, 400 ≤ st →
      solve_captcha_with_gpt4 (some ()) (NetBehavior.httpResponse st m body) =
        (Except.error ("GPT-4 API error: " ++ m), 1)) := by
  refine ⟨fun net => rfl, fun m => rfl, fun st m body h => ?_⟩
  simp only [solve_captcha_with_gpt4]
  rw [if_pos h]

theorem c8_solver_errors_witness :
    solve_captcha_with_gpt4 none (NetBehavior.transportError "x") =
      (Except.ok none, 0) ∧
    solve_captcha_with_gpt4 (some ())
        (NetBehavior.httpResponse 500 "500 Server Error" (Except.ok "tok")) =
      (Except.error ("GPT-4 API error: " ++ "500 Server Error"), 1) :=
  ⟨c8_solver_errors.1 (NetBehavior.transportError "x"),
    c8_solver_errors.2.2 500 "500 Server Error" (Except.ok "tok") (by omega)⟩

/-! ### Request handler claims -/

/-- C6: whenever `handle_captcha_submission` comes back false after a request
with both parameters present and working driver and navigation, the handler
responds `success: false`, `error: "Failed to solve captcha"` with HTTP
status 400 — distinct from the generic 500 server-error response. -/
theorem c6_captcha_exhaustion_response (data : List (String × String))
    (env : HandlerEnv) (hiec : hasKey data "iec_code" = true)
    (hname : hasKey data "name" = true)
    (hdrv : env.createDriver = Except.ok ()) (hnav : env.nav = Except.ok ())
    (hcap : (handle_captcha_submission env.captchaEnvs).1 = false) :
    (get_iec_details (some data) env).status = 400 ∧
    (get_iec_details (some data) env).success = false ∧
    (get_iec_details (some data) env).error = some "Failed to solve captcha" ∧
    (get_iec_details (some data) env).status ≠ 500 := by
  have hne : data.isEmpty = false := by
    cases data with
    | nil => simp [hasKey] at hiec
    | cons kv rest => rfl
  have hres : get_iec_details (some data) env =
      ⟨400, false, some "Failed to solve captcha", none, true,
        some (lookupKey data "iec_code", lookupKey data "name")⟩ := by
    simp only [get_iec_details, hne, hiec, hname, hdrv, hnav, hcap,
      Bool.not_true, Bool.or_false, Bool.false_or, Bool.false_eq_true,
      if_false]
  rw [hres]
  exact ⟨rfl, rfl, rfl, by simp⟩

theorem c6_captcha_exhaustion_response_witness :
    (get_iec_details
        (some [("iec_code", "0101000061"), ("name", "ACME EXPORTS")])
        demoEnv).status = 400 ∧
    (get_iec_details
        (some [("iec_code", "0101000061"), ("name", "ACME EXPORTS")])
        demoEnv).success = false ∧
    (get_iec_details
        (some [("iec_code", "0101000061"), ("name", "ACME EXPORTS")])
        demoEnv).error = some "Failed to solve captcha" ∧
    (get_iec_details
        (some [("iec_code", "0101000061"), ("name", "ACME EXPORTS")])
        demoEnv).status ≠ 500 :=
  c6_captcha_exhaustion_response
    [("iec_code", "0101000061"), ("name", "ACME EXPORTS")] demoEnv
    (by decide) (by decide) rfl rfl (by decide)

/-- C7: a request with no JSON object, or whose object lacks `iec_code` or
lacks `name`, is answered with the missing-parameters 400 response, for every
environment — in particular no driver is requested (`driverRequested` is
false in `missingParamsResp`). -/
theorem c7_missing_params (req : Option (List (String × String)))
    (hmiss : req = none ∨ ∃ d, req = some d ∧
      (hasKey d "iec_code" = false ∨ hasKey d "name" = false)) :
    ∀ env, get_iec_details req env = missingParamsResp := by
  intro env
  rcases hmiss with rfl | ⟨d, rfl, hd⟩
  · rfl
  · rcases hd with hd | hd
    · simp [get_iec_details, hd]
    · simp [get_iec_details, hd]

theorem c7_missing_params_witness :
    get_iec_details none demoEnv = missingParamsResp ∧
    get_iec_details (some [("iec_code", "0101000061")]) demoEnv =
      missingParamsResp :=
  ⟨c7_missing_params none (Or.inl rfl) demoEnv,
    c7_missing_params (some [("iec_code", "0101000061")])
      (Or.inr ⟨[("iec_code", "0101000061")], rfl, Or.inr (by decide)⟩)
      demoEnv⟩

/-- C10: a JSON body carrying both keys with empty-string values passes the
required-parameter guard (the guard tests only key presence): the handler
requests a driver, and — when driver creation and navigation succeed — types
the two empty strings into the form fields. -/
theorem c10_empty_values_pass (env : HandlerEnv)
    (hdrv : env.createDriver = Except.ok ()) (hnav : env.nav = Except.ok ()) :
    (get_iec_details (some [("iec_code", ""), ("name", "")])
        env).driverRequested = true ∧
    (get_iec_details (some [("iec_code", ""), ("name", "")])
        env).sentInputs = some ("", "") ∧
    get_iec_details (some [("iec_code", ""), ("name", "")]) env ≠
      missingParamsResp := by
  cases hc : (handle_captcha_submission env.captchaEnvs).1 with
  | false =>
    have hres : get_iec_details (some [("iec_code", ""), ("name", "")]) env =
        ⟨400, false, some "Failed to solve captcha", none, true,
          some ("", "")⟩ := by
      simp [get_iec_details, hdrv, hnav, hc, lookupKey, hasKey]
    rw [hres]
    exact ⟨rfl, rfl, by simp [missingParamsResp]⟩
  | true =>
    cases hd : env.detailsResult with
    | error e =>
      have hres : get_iec_details (some [("iec_code", ""), ("name", "")]) env =
          ⟨500, false, some e, none, true, some ("", "")⟩ := by
        simp [get_iec_details, hdrv, hnav, hc, hd, lookupKey, hasKey]
      rw [hres]
      exact ⟨rfl, rfl, by simp [missingParamsResp]⟩
    | ok dstr =>
      have hres : get_iec_details (some [("iec_code", ""), ("name", "")]) env =
          ⟨200, true, none,
            some (dstr,
              extract_table_data_with_pagination env.branchScript ";"),
            true, some ("", "")⟩ := by
        simp [get_iec_details, hdrv, hnav, hc, hd, lookupKey, hasKey]
      rw [hres]
      exact ⟨rfl, rfl, by simp [missingParamsResp]⟩

theorem c10_empty_values_pass_witness :
    (get_iec_details (some [("iec_code", ""), ("name", "")])
        demoEnv).driverRequested = true ∧
    (get_iec_details (some [("iec_code", ""), ("name", "")])
        demoEnv).sentInputs = some ("", "") ∧
    get_iec_details (some [("iec_code", ""), ("name", "")]) demoEnv ≠
      missingParamsResp :=
  c10_empty_values_pass demoEnv rfl rfl
